import Mathlib

/-!
# Verification of the capablanca-api Rating & Game-State subsystem

Shallow embedding of `src/api/models.py` (Django models): the `Elo` rating
update algorithm and the entity model (`Player`, `Result`, `Board`, `Piece`,
`Game`, `Move`, `Position`, `Claim`, `ClaimItem`).

Conventions of the embedding:
* Python floating-point arithmetic is idealised as real arithmetic (`ℝ`);
  Python 3's built-in `round` (round-half-to-even, "banker's rounding") is
  embedded as `pyRound`.
* Django `IntegerField`s are `ℤ`; `DateTimeField`s are `ℕ` timestamps;
  `auto_now` fields are modelled by passing the current time explicitly to
  the operation that saves the row.
* The source's `update_rating` cannot fail (it performs no validation and no
  idempotency bookkeeping); its codomain is nevertheless embedded as
  `Except RatingError Elo` so that the specification's claimed failure modes
  (`InvalidScore`, `AlreadySettled`) are statable: the embedded function
  always returns `Except.ok`, exactly as the source always succeeds.
-/

namespace Api

/-- The error taxonomy named by the specification (§7).  The source code of
`update_rating` raises none of these; the type exists so claims about typed
failures can be stated and settled. -/
inductive RatingError where
  | InvalidScore
  | AlreadySettled
deriving DecidableEq

/-- Source `class Player(Model)`: `guest` flag, optional registered `user`, `uuid`
(modelled as a natural number). -/
structure Player where
  guest : Bool
  user : Option ℕ
  uuid : ℕ
deriving DecidableEq

/-- Python 3's built-in `round` on a real argument: round to the nearest
integer, ties to the nearest even integer (banker's rounding).  This is the
rounding the source's `round(...)` call performs. -/
noncomputable def pyRound (x : ℝ) : ℤ :=
  if Int.fract x < 1 / 2 then ⌊x⌋
  else if 1 / 2 < Int.fract x then ⌊x⌋ + 1
  else if Even ⌊x⌋ then ⌊x⌋ else ⌊x⌋ + 1

/-- Source `Elo._get_expected_score`, as a function of the subject's `rating` field
and the `opponent_rating` argument:
`1 / (1 + 10**((opponent_rating - self.rating) / 400))`. -/
noncomputable def expectedScore (rating opponent_rating : ℤ) : ℝ :=
  1 / (1 + (10 : ℝ) ^ (((opponent_rating : ℝ) - (rating : ℝ)) / 400))

/-- The new value of `self.rating` computed by `Elo.update_rating`:
`round(self.rating + self.k_factor * (score - expected_score))`. -/
noncomputable def newRating (rating k_factor : ℤ) (score : ℝ)
    (opponent_rating : ℤ) : ℤ :=
  pyRound ((rating : ℝ) + (k_factor : ℝ) * (score - expectedScore rating opponent_rating))

/-- Source `class Elo(Model)`: `rating` (default 1200), `k_factor` (default 32),
`wins`/`losses`/`draws` counters (default 0), `updated_at` (`auto_now`). -/
structure Elo where
  rating : ℤ
  k_factor : ℤ
  wins : ℤ
  losses : ℤ
  draws : ℤ
  updated_at : ℕ
deriving DecidableEq

/-- The field defaults of `class Elo(Model)` (a freshly created row). -/
def eloDefault : Elo :=
  { rating := 1200, k_factor := 32, wins := 0, losses := 0, draws := 0,
    updated_at := 0 }

/-- Source `Elo._get_expected_score(self, opponent_rating)` as a method. -/
noncomputable def Elo.get_expected_score (e : Elo) (opponent_rating : ℤ) : ℝ :=
  expectedScore e.rating opponent_rating

/-- Source `Elo.update_rating(self, score, opponent_rating)`: sets
`self.rating = round(self.rating + self.k_factor * (score - expected_score))`
and calls `self.save()`, which (via `auto_now`) also refreshes `updated_at`
to the save time `now`.  The source performs no score validation, no
settlement bookkeeping, and never touches `wins`/`losses`/`draws`, so the
embedded method unconditionally returns `Except.ok` of the updated row. -/
noncomputable def Elo.update_rating (e : Elo) (score : ℝ) (opponent_rating : ℤ)
    (now : ℕ) : Except RatingError Elo :=
  Except.ok
    { e with
      rating := newRating e.rating e.k_factor score opponent_rating,
      updated_at := now }

namespace Result

/-- Source constant `Result.SCHEDULED`. -/
def SCHEDULED : String := "Scheduled"
/-- Source constant `Result.POSTPONED`. -/
def POSTPONED : String := "Postponed"
/-- Source constant `Result.FINISHED_NO_MOVES`. -/
def FINISHED_NO_MOVES : String := "Finished (no moves)"
/-- Source constant `Result.IN_PROGRESS`. -/
def IN_PROGRESS : String := "In progress"
/-- Source constant `Result.ADJOURNED`. -/
def ADJOURNED : String := "Adjourned"
/-- Source constant `Result.FINISHED_BASIC_RULES`. -/
def FINISHED_BASIC_RULES : String := "Finished (basic rules)"
/-- Source constant `Result.FINISHED_CLOCK`. -/
def FINISHED_CLOCK : String := "Finished (clock)"
/-- Source constant `Result.DRAW`. -/
def DRAW : String := "Draw"
/-- Source constant `Result.FINISHED_BREACH`. -/
def FINISHED_BREACH : String := "Finished (breach)"
/-- Source constant `Result.FINISHED_COMPLIANCE`. -/
def FINISHED_COMPLIANCE : String := "Finished (compliance)"
/-- Source constant `Result.TBD`. -/
def TBD : String := "TBD"
/-- Source constant `Result.ABANDONED`. -/
def ABANDONED : String := "Abandoned"
/-- Source constant `Result.UNKNOWN`. -/
def UNKNOWN : String := "Unknown"

/-- Source `Result.RESULT_CHOICES`: the value/label pairs of the `description`
field's `choices`. -/
def RESULT_CHOICES : List (String × String) :=
  [(SCHEDULED, "Scheduled"),
   (POSTPONED, "Postponed"),
   (FINISHED_NO_MOVES, "Finished without any moves played"),
   (IN_PROGRESS, "In progress"),
   (ADJOURNED, "Adjourned"),
   (FINISHED_BASIC_RULES, "Finished according to the Basic Rules of Play"),
   (FINISHED_CLOCK, "Finished by the clock"),
   (DRAW, "Draw"),
   (FINISHED_BREACH, "Finished because of a breach of rules of one player"),
   (FINISHED_COMPLIANCE,
    "Finished because both players persistently refuse to comply with the laws of chess"),
   (TBD, "To be decided"),
   (ABANDONED, "Abandoned"),
   (UNKNOWN, "Unknown")]

end Result

/-- Source `class Result(Model)`: a single `description` text field drawn from
`RESULT_CHOICES` (its Django default is `IN_PROGRESS`). -/
structure Result where
  description : String
deriving DecidableEq

/-- The default value of `Board.layout`: the standard chess starting
position. -/
def standardLayout : String :=
  "rnbqkbnr/pppppppp/8/8/8/8/PPPPPPPP/RNBQKBNR w KQkq - 0 1"

/-- Source `class Board(Model)`: the position encoding `layout` (default
`standardLayout`) and an `auto_now` timestamp. -/
structure Board where
  layout : String
  updated_at : ℕ
deriving DecidableEq

/-- Source `class Game(Model)`: aggregate of two players, timestamps, one `Result`
and one `Board`. -/
structure Game where
  uuid : ℕ
  whites_player : Player
  blacks_player : Player
  start_timestamp : ℕ
  end_timestamp : Option ℕ
  result : Result
  board : Board
deriving DecidableEq

/-- Modelled from the spec: `CreateGame` itself is not in `src/` (only the
Django models are).  §6: "CreateGame(whitePlayer, blackPlayer) -> Game (Board
initialized to standard layout, Result = Scheduled)".  The Board's starting
layout is the source's `Board.layout` default. -/
def CreateGame (whitePlayer blackPlayer : Player) : Game :=
  { uuid := 0,
    whites_player := whitePlayer,
    blacks_player := blackPlayer,
    start_timestamp := 0,
    end_timestamp := none,
    result := { description := Result.SCHEDULED },
    board := { layout := standardLayout, updated_at := 0 } }

namespace Claim

/-- Source constant `Claim.THREEFOLD_REPETITION`. -/
def THREEFOLD_REPETITION : String := "tr"
/-- Source constant `Claim.FIFTY_MOVES`. -/
def FIFTY_MOVES : String := "ft"
/-- Source constant `Claim.DRAW`. -/
def DRAW : String := "d"

/-- Source `Claim.CLAIM_CHOICES`. -/
def CLAIM_CHOICES : List (String × String) :=
  [(THREEFOLD_REPETITION, "Threefold repetition"),
   (FIFTY_MOVES, "Fifty moves"),
   (DRAW, "Draw")]

end Claim

/-- The outcome of evaluating a draw claim (spec §4.3). -/
inductive ClaimResult where
  | Upheld
  | Rejected
deriving DecidableEq

/-- Modelled from the spec: no claim adjudicator exists in `src/` (the
`Claim` model is only a type tag).  §4.3: "FiftyMoves: upheld iff the Board's
halfmove clock at the time of the claim is ≥ 100". -/
def evaluateFiftyMoves (halfmove_clock : ℕ) : ClaimResult :=
  if 100 ≤ halfmove_clock then ClaimResult.Upheld else ClaimResult.Rejected

/-! ## Properties of `pyRound` (banker's rounding) -/

/-- Rounding an integer: `pyRound` of an integer is that integer. -/
theorem pyRound_intCast (n : ℤ) : pyRound (n : ℝ) = n := by
  unfold pyRound
  rw [Int.fract_intCast, Int.floor_intCast]
  norm_num

/-- Rounding at an exact half-integer tie goes to the even neighbour. -/
theorem pyRound_intCast_add_half (n : ℤ) :
    pyRound ((n : ℝ) + 1 / 2) = if Even n then n else n + 1 := by
  have hfr : Int.fract ((1 : ℝ) / 2) = 1 / 2 :=
    Int.fract_eq_self.mpr ⟨by norm_num, by norm_num⟩
  have hfl : ⌊(1 : ℝ) / 2⌋ = 0 := by
    rw [Int.floor_eq_zero_iff]
    constructor <;> norm_num
  unfold pyRound
  rw [Int.fract_int_add, Int.floor_int_add, hfr, hfl]
  norm_num

/-- Away from half-integer ties, `pyRound` commutes with adding an
integer. -/
theorem pyRound_int_add {x : ℝ} (hx : Int.fract x ≠ 1 / 2) (n : ℤ) :
    pyRound ((n : ℝ) + x) = n + pyRound x := by
  unfold pyRound
  rw [Int.fract_int_add, Int.floor_int_add]
  rcases lt_trichotomy (Int.fract x) (1 / 2) with h | h | h
  · rw [if_pos h, if_pos h]
  · exact absurd h hx
  · rw [if_neg (not_lt.mpr h.le), if_neg (not_lt.mpr h.le), if_pos h, if_pos h]
    ring

/-- Away from half-integer ties, `pyRound` is an odd function. -/
theorem pyRound_neg {x : ℝ} (hx : Int.fract x ≠ 1 / 2) :
    pyRound (-x) = -pyRound x := by
  by_cases hf0 : Int.fract x = 0
  · have hxz : x = (⌊x⌋ : ℝ) := by
      have := Int.floor_add_fract x
      rw [hf0, add_zero] at this
      exact this.symm
    rw [hxz, ← Int.cast_neg, pyRound_intCast, pyRound_intCast]
  · have hceil : ⌈x⌉ = ⌊x⌋ + 1 := by
      have hc : (⌈x⌉ : ℝ) = x + 1 - Int.fract x := Int.ceil_eq_add_one_sub_fract hf0
      have hfx : (⌊x⌋ : ℝ) = x - Int.fract x := by
        have := Int.self_sub_fract x
        linarith
      have : (⌈x⌉ : ℝ) = ((⌊x⌋ + 1 : ℤ) : ℝ) := by push_cast; linarith
      exact_mod_cast this
    have hfneg : Int.fract (-x) = 1 - Int.fract x := Int.fract_neg hf0
    have hflneg : ⌊-x⌋ = -⌊x⌋ - 1 := by
      rw [Int.floor_neg, hceil]; ring
    have h0 : 0 ≤ Int.fract x := Int.fract_nonneg x
    have h1 : Int.fract x < 1 := Int.fract_lt_one x
    unfold pyRound
    rw [hfneg, hflneg]
    rcases lt_or_gt_of_ne hx with hlt | hgt
    · rw [if_neg (by linarith), if_pos (by linarith), if_pos hlt]
      ring
    · rw [if_pos (by linarith), if_neg (not_lt.mpr hgt.le), if_pos hgt]
      ring

/-- Nearest-integer property: `pyRound` stays within half a unit: the result is within `1/2` of the
argument. -/
theorem abs_pyRound_sub_le (x : ℝ) : |(pyRound x : ℝ) - x| ≤ 1 / 2 := by
  have h0 : 0 ≤ Int.fract x := Int.fract_nonneg x
  have h1 : Int.fract x < 1 := Int.fract_lt_one x
  have hfx : (⌊x⌋ : ℝ) = x - Int.fract x := by
    have := Int.self_sub_fract x
    linarith
  unfold pyRound
  split_ifs with ha hb hc <;>
    · rw [abs_le]
      constructor <;> (push_cast; linarith)

/-! ## Properties of the expected score -/

/-- The base `10 ^ ((b - a) / 400)` of the expected-score formula is
positive. -/
theorem rpowBase_pos (a b : ℤ) :
    0 < (10 : ℝ) ^ (((b : ℝ) - (a : ℝ)) / 400) :=
  Real.rpow_pos_of_pos (by norm_num) _

/-- A player's expected score against an equally rated opponent is exactly
`1/2`. -/
theorem expectedScore_self (r : ℤ) : expectedScore r r = 1 / 2 := by
  unfold expectedScore
  rw [sub_self, zero_div, Real.rpow_zero]
  norm_num

/-- The two players' expected scores sum to exactly `1`. -/
theorem expectedScore_add_symm (a b : ℤ) :
    expectedScore a b + expectedScore b a = 1 := by
  unfold expectedScore
  have hc := rpowBase_pos a b
  set c : ℝ := (10 : ℝ) ^ (((b : ℝ) - (a : ℝ)) / 400) with hcdef
  have hrev : (10 : ℝ) ^ (((a : ℝ) - (b : ℝ)) / 400) = c⁻¹ := by
    rw [hcdef, ← Real.rpow_neg (by norm_num)]
    congr 1
    ring
  rw [hrev]
  have hc1 : (1 : ℝ) + c ≠ 0 := by positivity
  have hcne : c ≠ 0 := ne_of_gt hc
  field_simp
  ring

/-! ## Concrete evaluations of `newRating` -/

/-- Against an equally rated opponent the expected score is `1/2`, so the new
rating is the integer `R + K * (s - 1/2)` whenever that value is an
integer. -/
theorem newRating_equal_opp (R K : ℤ) (s : ℝ) (n : ℤ)
    (h : (R : ℝ) + (K : ℝ) * (s - 1 / 2) = (n : ℝ)) :
    newRating R K s R = n := by
  unfold newRating
  rw [expectedScore_self, h, pyRound_intCast]

/-- Evaluation of the rating formula: 1200 vs 1200, K = 32, win. -/
theorem newRating_win_eval : newRating 1200 32 1 1200 = 1216 :=
  newRating_equal_opp 1200 32 1 1216 (by push_cast; norm_num)

/-- Evaluation of the rating formula: 1200 vs 1200, K = 32, loss. -/
theorem newRating_loss_eval : newRating 1200 32 0 1200 = 1184 :=
  newRating_equal_opp 1200 32 0 1184 (by push_cast; norm_num)

/-- Evaluation of the rating formula: 1200 vs 1200, K = 32, draw. -/
theorem newRating_draw_eval : newRating 1200 32 (1 / 2) 1200 = 1200 :=
  newRating_equal_opp 1200 32 (1 / 2) 1200 (by push_cast; norm_num)

/-- Evaluation of the rating formula: 1200 vs 1200, K = 16, loss. -/
theorem newRating_k16_eval : newRating 1200 16 0 1200 = 1192 :=
  newRating_equal_opp 1200 16 0 1192 (by push_cast; norm_num)

/-- Evaluation of the rating formula: 1200 vs 1200, K = 32 and the out-of-range
score 2. -/
theorem newRating_score2_eval : newRating 1200 32 2 1200 = 1248 :=
  newRating_equal_opp 1200 32 2 1248 (by push_cast; norm_num)

/-! ## Claim theorems -/

/-- C1: for every integer self rating `R`, positive `k_factor` `K`, score
`s ∈ {0, 1/2, 1}` and integer opponent rating `O`, `update_rating` computes
the expected score `E = 1 / (1 + 10 ^ ((O - R) / 400))` and sets the new
rating to `R + K * (s - E)` rounded to a nearest integer; in particular with
`R = O = 1200` and `K = 32` it returns `1216` for a win and `1184` for a
loss. -/
theorem C1_update_rating_formula (R O K : ℤ) (s : ℝ)
    (hK : 0 < K) (hs : s = 0 ∨ s = 1 / 2 ∨ s = 1) :
    newRating R K s O =
      pyRound ((R : ℝ) + (K : ℝ) *
        (s - 1 / (1 + (10 : ℝ) ^ (((O : ℝ) - (R : ℝ)) / 400)))) ∧
    |(newRating R K s O : ℝ) -
        ((R : ℝ) + (K : ℝ) * (s - expectedScore R O))| ≤ 1 / 2 ∧
    newRating 1200 32 1 1200 = 1216 ∧ newRating 1200 32 0 1200 = 1184 := by
  refine ⟨rfl, ?_, newRating_win_eval, newRating_loss_eval⟩
  exact abs_pyRound_sub_le _

/-- Witness for C1 at `R = O = 1200`, `K = 32`, `s = 1`. -/
theorem C1_update_rating_formula_witness :
    (0 : ℤ) < 32 ∧ newRating 1200 32 1 1200 = 1216 :=
  ⟨by norm_num,
    (C1_update_rating_formula 1200 1200 32 1 (by norm_num)
      (by norm_num)).2.2.1⟩

/-! ## Zero-sum analysis for C2 -/

/-- Negation preserves "not at an exact half-integer tie". -/
theorem fract_neg_ne_half {x : ℝ} (hx : Int.fract x ≠ 1 / 2) :
    Int.fract (-x) ≠ 1 / 2 := by
  by_cases h0 : Int.fract x = 0
  · rw [Int.fract_neg_eq_zero.mpr h0]
    norm_num
  · rw [Int.fract_neg h0]
    intro h
    exact hx (by linarith)

/-- Away from ties, symmetric deltas cancel regardless of the two base
ratings. -/
theorem pyRound_zero_sum_aux (R1 R2 : ℤ) (x : ℝ)
    (hx : Int.fract x ≠ 1 / 2) :
    pyRound ((R1 : ℝ) + x) - R1 = -(pyRound ((R2 : ℝ) + -x) - R2) := by
  rw [pyRound_int_add hx R1, pyRound_int_add (fract_neg_ne_half hx) R2,
    pyRound_neg hx]
  ring

/-- At an exact half-integer delta about a single base rating `R`, banker's
rounding still cancels: the two tie resolutions pick neighbours placed
symmetrically about `2R`. -/
theorem pyRound_zero_sum_half (R m : ℤ) :
    pyRound ((R : ℝ) + ((m : ℝ) + 1 / 2)) - R =
      -(pyRound ((R : ℝ) + -((m : ℝ) + 1 / 2)) - R) := by
  have h1 : (R : ℝ) + ((m : ℝ) + 1 / 2) = ((R + m : ℤ) : ℝ) + 1 / 2 := by
    push_cast; ring
  have h2 : (R : ℝ) + -((m : ℝ) + 1 / 2) = ((R - m - 1 : ℤ) : ℝ) + 1 / 2 := by
    push_cast; ring
  rw [h1, h2, pyRound_intCast_add_half, pyRound_intCast_add_half]
  rcases Int.even_or_odd (R + m) with he | ho
  · have he' := Int.even_iff.mp he
    have hno : ¬Even (R - m - 1) := by
      rw [Int.even_iff]; omega
    rw [if_pos he, if_neg hno]; ring
  · have ho' := Int.odd_iff.mp ho
    have hno : ¬Even (R + m) := by
      rw [Int.even_iff]; omega
    have hyes : Even (R - m - 1) := by
      rw [Int.even_iff]; omega
    rw [if_neg hno, if_pos hyes]; ring

/-- If the delta `K * (1 - expectedScore R1 R2)` lands on an exact
half-integer tie, the two ratings must be equal.  (Otherwise
`10 ^ ((R2 - R1) / 400)` would be the rational `j / (2K - j)` with `j` odd;
raising to the 400th power gives an integer equation whose two sides have
different parities.) -/
theorem eq_of_tie (R1 R2 K : ℤ)
    (hx : Int.fract ((K : ℝ) * (1 - expectedScore R1 R2)) = 1 / 2) :
    R1 = R2 := by
  by_contra hne
  have hc : 0 < (10 : ℝ) ^ (((R2 : ℝ) - (R1 : ℝ)) / 400) := rpowBase_pos R1 R2
  set c : ℝ := (10 : ℝ) ^ (((R2 : ℝ) - (R1 : ℝ)) / 400) with hcdef
  set x : ℝ := (K : ℝ) * (1 - expectedScore R1 R2) with hxdef
  have h1c : (1 : ℝ) + c ≠ 0 := by positivity
  have hxc : x * (1 + c) = (K : ℝ) * c := by
    rw [hxdef]
    unfold expectedScore
    rw [← hcdef]
    field_simp
  have hfl : x = (⌊x⌋ : ℝ) + 1 / 2 := by
    have h := Int.floor_add_fract x
    rw [hx] at h
    linarith
  set j : ℤ := 2 * ⌊x⌋ + 1 with hjdef
  have hj : (j : ℝ) = 2 * x := by
    rw [hjdef]; push_cast; linarith [hfl]
  have hjodd : j % 2 = 1 := by omega
  have hkey : c * (2 * (K : ℝ) - (j : ℝ)) = (j : ℝ) := by
    have h2 : (j : ℝ) * (1 + c) = 2 * (K : ℝ) * c := by
      rw [hj]
      linear_combination 2 * hxc
    linear_combination -h2
  have hjne0 : j ≠ 0 := by omega
  have hcpow : c ^ (400 : ℕ) = (10 : ℝ) ^ (R2 - R1) := by
    rw [hcdef, ← Real.rpow_natCast ((10 : ℝ) ^ (((R2 : ℝ) - (R1 : ℝ)) / 400)) 400,
      ← Real.rpow_mul (by norm_num : (0 : ℝ) ≤ 10),
      ← Real.rpow_intCast 10 (R2 - R1)]
    congr 1
    push_cast
    field_simp
  have hp : (10 : ℝ) ^ (R2 - R1) * (2 * (K : ℝ) - (j : ℝ)) ^ (400 : ℕ) =
      ((j : ℝ)) ^ (400 : ℕ) := by
    rw [← hcpow, ← mul_pow, hkey]
  set d : ℤ := R2 - R1 with hddef
  have hdne : d ≠ 0 := by omega
  have hoddpow : Odd (j ^ (400 : ℕ)) := (Int.odd_iff.mpr hjodd).pow
  have hodd2 : (2 * K - j) % 2 = 1 := by omega
  have hoddpow2 : Odd ((2 * K - j) ^ (400 : ℕ)) := (Int.odd_iff.mpr hodd2).pow
  rcases lt_or_gt_of_ne hdne with hd | hd
  · -- d < 0 : the equation reads (2K - j)^400 = 10^(-d) * j^400
    have h10 : (10 : ℝ) ^ d = ((((10 : ℤ) ^ (-d).toNat) : ℤ) : ℝ)⁻¹ := by
      have hdeq : d = -(((-d).toNat : ℤ)) := by omega
      conv_lhs => rw [hdeq]
      rw [zpow_neg, zpow_natCast, Int.cast_pow]
      norm_num
    rw [h10] at hp
    have h10ne : ((((10 : ℤ) ^ (-d).toNat) : ℤ) : ℝ) ≠ 0 := by positivity
    have hZr : (2 * (K : ℝ) - (j : ℝ)) ^ (400 : ℕ) =
        ((((10 : ℤ) ^ (-d).toNat) : ℤ) : ℝ) * ((j : ℝ)) ^ (400 : ℕ) := by
      rw [inv_mul_eq_iff_eq_mul₀ h10ne] at hp
      exact hp
    have hZ : (2 * K - j) ^ (400 : ℕ) = (10 : ℤ) ^ (-d).toNat * j ^ (400 : ℕ) := by
      exact_mod_cast hZr
    have hEven : Even ((10 : ℤ) ^ (-d).toNat * j ^ (400 : ℕ)) := by
      apply Even.mul_right
      have hsplit : (-d).toNat = ((-d).toNat - 1) + 1 := by omega
      rw [hsplit, pow_succ]
      exact (by decide : Even (10 : ℤ)).mul_left _
    rw [← hZ] at hEven
    exact (Int.not_odd_iff_even.mpr hEven) hoddpow2
  · -- d > 0 : the equation reads 10^d * (2K - j)^400 = j^400
    have h10 : (10 : ℝ) ^ d = ((((10 : ℤ) ^ d.toNat) : ℤ) : ℝ) := by
      have hdeq : d = ((d.toNat : ℤ)) := by omega
      conv_lhs => rw [hdeq]
      rw [zpow_natCast, Int.cast_pow]
      norm_num
    rw [h10] at hp
    have hZ : (10 : ℤ) ^ d.toNat * (2 * K - j) ^ (400 : ℕ) = j ^ (400 : ℕ) := by
      exact_mod_cast hp
    have hEven : Even ((10 : ℤ) ^ d.toNat * (2 * K - j) ^ (400 : ℕ)) := by
      apply Even.mul_right
      have hsplit : d.toNat = (d.toNat - 1) + 1 := by omega
      rw [hsplit, pow_succ]
      exact (by decide : Even (10 : ℤ)).mul_left _
    rw [hZ] at hEven
    exact (Int.not_odd_iff_even.mpr hEven) hoddpow

/-- C2: with one shared `k_factor` `K`, a win for the player rated `R1`
against the player rated `R2` (score `1` vs score `0`) produces exactly
opposite rating deltas; with differing k-factors (`32` vs `16`) the deltas
are not opposite. -/
theorem C2_zero_sum_equal_k (R1 R2 K : ℤ) (hK : 0 < K) :
    newRating R1 K 1 R2 - R1 = -(newRating R2 K 0 R1 - R2) ∧
    newRating 1200 32 1 1200 - 1200 ≠ -(newRating 1200 16 0 1200 - 1200) := by
  constructor
  · unfold newRating
    have hE2 : expectedScore R2 R1 = 1 - expectedScore R1 R2 := by
      have := expectedScore_add_symm R1 R2
      linarith
    have harg2 : (R2 : ℝ) + (K : ℝ) * ((0 : ℝ) - expectedScore R2 R1) =
        (R2 : ℝ) + -((K : ℝ) * ((1 : ℝ) - expectedScore R1 R2)) := by
      rw [hE2]; ring
    rw [harg2]
    by_cases hx : Int.fract ((K : ℝ) * ((1 : ℝ) - expectedScore R1 R2)) = 1 / 2
    · have hR : R1 = R2 := eq_of_tie R1 R2 K hx
      subst hR
      rw [expectedScore_self] at hx ⊢
      rcases Int.even_or_odd K with ⟨m, hm⟩ | ⟨m, hm⟩
      · exfalso
        have hint : (K : ℝ) * ((1 : ℝ) - 1 / 2) = ((m : ℤ) : ℝ) := by
          rw [hm]; push_cast; ring
        rw [hint, Int.fract_intCast] at hx
        norm_num at hx
      · have hval : (K : ℝ) * ((1 : ℝ) - 1 / 2) = ((m : ℤ) : ℝ) + 1 / 2 := by
          rw [hm]; push_cast; ring
        rw [hval]
        exact pyRound_zero_sum_half R1 m
    · exact pyRound_zero_sum_aux R1 R2 _ hx
  · rw [newRating_win_eval, newRating_k16_eval]
    norm_num

/-- Witness for C2 at `R1 = R2 = 1200`, `K = 32`. -/
theorem C2_zero_sum_equal_k_witness :
    (0 : ℤ) < 32 ∧
      newRating 1200 32 1 1200 - 1200 = -(newRating 1200 32 0 1200 - 1200) :=
  ⟨by norm_num, (C2_zero_sum_equal_k 1200 1200 32 (by norm_num)).1⟩

/-- C6: a draw (`score = 1/2`) between two players of the same rating `R`
and the same `k_factor` `K` leaves each player's rating exactly at `R`:
the expected score is `1/2`, the delta is `0`, and rounding the integer `R`
returns `R`. -/
theorem C6_draw_equal_ratings_fixed (R K : ℤ) :
    newRating R K (1 / 2) R = R :=
  newRating_equal_opp R K (1 / 2) R (by ring)

/-- Evaluation helper: an `update_rating` call whose new rating value is
known. -/
theorem update_rating_eval (e : Elo) (s : ℝ) (o : ℤ) (n : ℕ) (r : ℤ)
    (h : newRating e.rating e.k_factor s o = r) :
    e.update_rating s o n = Except.ok { e with rating := r, updated_at := n } := by
  rw [Elo.update_rating, h]

/-- C3 counterexample: two successive `update_rating` calls on the default
`Elo` row (draw against a 1200-rated opponent each time) both succeed — the
second call returns `Except.ok`, not an `AlreadySettled` failure. -/
theorem C3_counterexample :
    (eloDefault.update_rating (1 / 2) 1200 1).bind
        (fun e => e.update_rating (1 / 2) 1200 2) =
      Except.ok
        { rating := 1200, k_factor := 32, wins := 0, losses := 0, draws := 0,
          updated_at := 2 } := by
  have h1 : eloDefault.update_rating (1 / 2) 1200 1 =
      Except.ok { eloDefault with rating := 1200, updated_at := 1 } :=
    update_rating_eval _ _ _ _ _ newRating_draw_eval
  rw [h1]
  exact update_rating_eval _ _ _ _ _ newRating_draw_eval

/-- C3 amended: `update_rating` performs no settlement bookkeeping at all —
a second invocation on the row produced by a first invocation succeeds
(never fails with `AlreadySettled`) and simply applies the rating formula a
second time, starting from the already-updated rating; no invocation touches
the win/loss/draw counters. -/
theorem C3_no_already_settled_guard (e : Elo) (s1 s2 : ℝ) (o1 o2 : ℤ)
    (n1 n2 : ℕ) :
    (e.update_rating s1 o1 n1).bind (fun x => x.update_rating s2 o2 n2) =
      Except.ok
        { e with
          rating := newRating (newRating e.rating e.k_factor s1 o1)
            e.k_factor s2 o2,
          updated_at := n2 } :=
  rfl

/-- C4 counterexample: the out-of-range score `2` is accepted without any
`InvalidScore` failure, and the rating changes from 1200 to 1248. -/
theorem C4_counterexample :
    eloDefault.update_rating 2 1200 3 =
      Except.ok
        { rating := 1248, k_factor := 32, wins := 0, losses := 0, draws := 0,
          updated_at := 3 } ∧
    ¬((2 : ℝ) = 0 ∨ (2 : ℝ) = 1 / 2 ∨ (2 : ℝ) = 1) ∧
    (1248 : ℤ) ≠ eloDefault.rating := by
  refine ⟨update_rating_eval _ _ _ _ _ newRating_score2_eval, by norm_num, by decide⟩

/-- C4 amended: `update_rating` performs no score validation — every score,
including each one outside `{0, 1/2, 1}`, is accepted (never an
`InvalidScore` failure) and the same rating formula is applied to it. -/
theorem C4_no_score_validation (e : Elo) (s : ℝ) (o : ℤ) (n : ℕ)
    (hs : ¬(s = 0 ∨ s = 1 / 2 ∨ s = 1)) :
    e.update_rating s o n =
      Except.ok
        { e with
          rating := newRating e.rating e.k_factor s o,
          updated_at := n } :=
  rfl

/-- Witness for the amended C4 at the out-of-range score `2`. -/
theorem C4_no_score_validation_witness :
    ¬((2 : ℝ) = 0 ∨ (2 : ℝ) = 1 / 2 ∨ (2 : ℝ) = 1) ∧
    eloDefault.update_rating 2 1200 3 =
      Except.ok
        { eloDefault with
          rating := newRating 1200 32 2 1200,
          updated_at := 3 } :=
  ⟨by norm_num, C4_no_score_validation eloDefault 2 1200 3 (by norm_num)⟩

/-- C5 counterexample: a successful winning call (`score = 1`) leaves `wins`
(and every other counter) at its old value instead of incrementing exactly
one of them. -/
theorem C5_counterexample :
    eloDefault.update_rating 1 1200 7 =
      Except.ok
        { rating := 1216, k_factor := 32, wins := 0, losses := 0, draws := 0,
          updated_at := 7 } ∧
    eloDefault.wins = 0 :=
  ⟨update_rating_eval _ _ _ _ _ newRating_win_eval, rfl⟩

/-- C5 amended: every successful `update_rating` call persists the new
rating and refreshes `updated_at` (via `auto_now` on save), but leaves
`wins`, `losses` and `draws` all unchanged — it never increments any
counter. -/
theorem C5_counters_unchanged (e : Elo) (s : ℝ) (o : ℤ) (n : ℕ) :
    (e.update_rating s o n).map Elo.wins = Except.ok e.wins ∧
    (e.update_rating s o n).map Elo.losses = Except.ok e.losses ∧
    (e.update_rating s o n).map Elo.draws = Except.ok e.draws ∧
    (e.update_rating s o n).map Elo.updated_at = Except.ok n ∧
    (e.update_rating s o n).map Elo.rating =
      Except.ok (newRating e.rating e.k_factor s o) :=
  ⟨rfl, rfl, rfl, rfl, rfl⟩

/-- C7: for every pair of distinct players, `CreateGame` returns a `Game`
whose `Result` is `Scheduled`; `Scheduled` is one of the source's
`RESULT_CHOICES`. -/
theorem C7_create_game_scheduled (w b : Player) (h : w ≠ b) :
    (CreateGame w b).result.description = Result.SCHEDULED ∧
    (Result.SCHEDULED, "Scheduled") ∈ Result.RESULT_CHOICES :=
  ⟨rfl, List.mem_cons_self _ _⟩

/-- Witness for C7 at two concrete distinct guest players. -/
theorem C7_create_game_scheduled_witness :
    (⟨true, none, 0⟩ : Player) ≠ (⟨true, none, 1⟩ : Player) ∧
    (CreateGame ⟨true, none, 0⟩ ⟨true, none, 1⟩).result.description =
      Result.SCHEDULED :=
  ⟨by decide,
    (C7_create_game_scheduled ⟨true, none, 0⟩ ⟨true, none, 1⟩ (by decide)).1⟩

/-- Splitting a character list at spaces, for counting the fields of a
FEN-style encoding. -/
def splitFields : List Char → List (List Char)
  | [] => [[]]
  | c :: cs =>
    if c = ' ' then [] :: splitFields cs
    else
      match splitFields cs with
      | [] => [[c]]
      | f :: fs => (c :: f) :: fs

/-- C8: every freshly created `Game` has the standard-starting-position
layout string (the source's `Board.layout` default), and that string has six
space-separated fields. -/
theorem C8_board_layout_standard_fen (w b : Player) :
    (CreateGame w b).board.layout =
      "rnbqkbnr/pppppppp/8/8/8/8/PPPPPPPP/RNBQKBNR w KQkq - 0 1" ∧
    (splitFields (CreateGame w b).board.layout.toList).length = 6 :=
  ⟨rfl, (by decide : (splitFields standardLayout.toList).length = 6)⟩

/-- C9: the fifty-move claim evaluation (spec-modelled adjudicator) upholds
the claim exactly when the halfmove clock is at least 100; clock 99 rejects,
clock 100 upholds; `FIFTY_MOVES` is one of the source's `CLAIM_CHOICES`. -/
theorem C9_fifty_moves_threshold (n : ℕ) :
    (evaluateFiftyMoves n = ClaimResult.Upheld ↔ 100 ≤ n) ∧
    evaluateFiftyMoves 99 = ClaimResult.Rejected ∧
    evaluateFiftyMoves 100 = ClaimResult.Upheld ∧
    (Claim.FIFTY_MOVES, "Fifty moves") ∈ Claim.CLAIM_CHOICES := by
  refine ⟨?_, by decide, by decide, by decide⟩
  unfold evaluateFiftyMoves
  split_ifs with h
  · simp [h]
  · simp [h]

/-- C10: the expected scores of the two players of a game sum to exactly
`1`, and each lies strictly between `0` and `1`. -/
theorem C10_expected_score_sum (a b : ℤ) :
    expectedScore a b + expectedScore b a = 1 ∧
    0 < expectedScore a b ∧ expectedScore a b < 1 := by
  refine ⟨expectedScore_add_symm a b, ?_, ?_⟩
  · have hc := rpowBase_pos a b
    unfold expectedScore
    positivity
  · have hc := rpowBase_pos a b
    unfold expectedScore
    rw [div_lt_one (by linarith)]
    linarith

end Api
